import Mathlib

/-!
Shallow embedding of the Crime-Sensor pipeline (src/app.py).

The only source file is app.py.  Its core is the upload_video request
handler: it decodes a video, decimates frames (every FRAME_SKIP-th
physical frame), keeps a sliding deque of the last SEQ_LENGTH decimated
frames, classifies every full window, runs a counter-based crime-run
state machine over the classification stream, records a clip and sends
throttled alerts while a run is open, and finally returns the
highest-confidence prediction.

Modelling choices (all driven by the source, src/app.py):
  * A physical frame is modelled by the data the loop body consumes from
    the outside world at that step: the classifier outcome that
    predict_activity would return if this frame completes a full window
    (an exception is modelled as Except.error, since app.py wraps the
    call in no try/except), the wall-clock time that any send_alert call
    issued at this step would observe, and whether the Twilio send would
    succeed at this step.
  * Confidences are rationals (the code only compares and maximises
    them); timestamps are integers.
  * Side effects (opening/writing/closing the clip writer, uploading,
    attempting an alert) are recorded as an append-only event trace.
    The JSON rounding of the returned confidence to two decimals is
    presentation-layer formatting and is not modelled.
-/

namespace CrimeSensor

/-- SEQ_LENGTH = 16 in app.py: number of frames in a sequence. -/
def SEQ_LENGTH : Nat := 16

/-- CONFIDENCE_THRESHOLD = 0.7 in app.py, written as the normalised
rational 7/10 (constructor form, so that concrete runs evaluate). -/
def CONFIDENCE_THRESHOLD : ℚ := ⟨7, 10, by decide, by decide⟩

/-- Sanity check: the threshold is exactly 0.7. -/
lemma CONFIDENCE_THRESHOLD_num_den :
    CONFIDENCE_THRESHOLD.num = 7 ∧ CONFIDENCE_THRESHOLD.den = 10 := by
  exact ⟨rfl, rfl⟩

/-- ALERT_INTERVAL = 10 in app.py: seconds between consecutive alerts. -/
def ALERT_INTERVAL : Int := 10

/-- FRAME_SKIP = 5 in app.py: process every 5th frame. -/
def FRAME_SKIP : Nat := 5

/-- The crime label whitelist of app.py line 131 (lower-cased membership test). -/
def CRIME_LABELS : List String := ["robbery", "shoplifting", "stealing"]

/-- The constant clip path used both by cv2.VideoWriter (line 135) and by
upload_to_drive (line 146) in app.py. -/
def clipPath : String := "crime_clip.mp4"

/-- Observable side effects of the pipeline, in program order. -/
inductive Ev where
  | opened (path : String)
  | wrote
  | closed
  | uploaded (path : String)
  | alertSent (warning : Bool)
  | alertFailed (warning : Bool)
deriving DecidableEq, Repr

/-- send_alert of app.py (lines 71-85).  State is the global
last_alert_time; now is the value of time() during this call; ok is
whether the Twilio API call succeeds.  Returns the new last_alert_time
together with the externally visible events: an untimely call is
silently dropped (no event, no external send), otherwise the external
send is attempted and last_alert_time advances only on success. -/
def send_alert (last now : Int) (ok : Bool) (warning : Bool) : Int × List Ev :=
  if now - last < ALERT_INTERVAL then (last, [])
  else if ok then (now, [Ev.alertSent warning])
  else (last, [Ev.alertFailed warning])

instance {ε α : Type} [DecidableEq ε] [DecidableEq α] : DecidableEq (Except ε α)
  | Except.error a, Except.error b =>
    if h : a = b then isTrue (by rw [h]) else isFalse (by simp [h])
  | Except.error _, Except.ok _ => isFalse (by simp)
  | Except.ok _, Except.error _ => isFalse (by simp)
  | Except.ok a, Except.ok b =>
    if h : a = b then isTrue (by rw [h]) else isFalse (by simp [h])

/-- One physical frame of the input video, bundled with the environment
responses the loop body would observe at this frame (see module docstring). -/
structure Frame where
  pred : Except Unit (String × ℚ)
  time : Int
  notifyOk : Bool
deriving DecidableEq, Repr

/-- Python str.lower of the predicted label: character-wise
lower-casing, written structurally over the character list (the
semantics of String.toLower). -/
def lowerStr (s : String) : String := ⟨s.data.map Char.toLower⟩

/-- The qualifying test of app.py line 131: pred_class lower-cased is
one of robbery, shoplifting, stealing, and confidence is strictly above
CONFIDENCE_THRESHOLD. -/
def qualifies (p : String × ℚ) : Bool :=
  (lowerStr p.1 ∈ CRIME_LABELS) && (CONFIDENCE_THRESHOLD < p.2)

/-- The mutable state of the upload_video while-loop.  offered counts
the frames forwarded past the decimation test (an observation counter,
it corresponds to reaching line 124 of app.py); events is the
append-only trace of side effects so far. -/
structure LoopState where
  frameCount : Nat
  bufLen : Nat
  offered : Nat
  preds : List (String × ℚ)
  crimeCount : Nat
  crimeDetected : Bool
  outOpen : Bool
  lastAlert : Int
  events : List Ev
deriving DecidableEq, Repr

/-- Loop state at entry of the while-loop (app.py lines 108-117); the
global last_alert_time is initialised to 0 at module load. -/
def initState : LoopState :=
  { frameCount := 0, bufLen := 0, offered := 0, preds := []
    crimeCount := 0, crimeDetected := false, outOpen := false
    lastAlert := 0, events := [] }

/-- The qualifying branch of app.py lines 131-141, entered after the
prediction has been appended: increment crime_frame_count, on reaching 5
while not yet detected open the writer, send the warning and (since the
flag and the writer are then set) write the current frame; otherwise the
line 140 test writes the frame exactly when a run is open with a live
writer. -/
def startOrContinue (s : LoopState) (t : Int) (ok : Bool) : LoopState :=
  if 5 ≤ s.crimeCount + 1 ∧ s.crimeDetected = false then
    { s with crimeCount := s.crimeCount + 1, crimeDetected := true, outOpen := true,
             lastAlert := (send_alert s.lastAlert t ok true).1,
             events := s.events ++ [Ev.opened clipPath]
                         ++ (send_alert s.lastAlert t ok true).2 ++ [Ev.wrote] }
  else if s.crimeDetected && s.outOpen then
    { s with crimeCount := s.crimeCount + 1, events := s.events ++ [Ev.wrote] }
  else { s with crimeCount := s.crimeCount + 1 }

/-- The non-qualifying branch of app.py lines 142-148: reset
crime_frame_count (the line 143 guard and an unconditional reset agree),
and if a run was open, release the writer, upload the clip and send the
confirmation alert. -/
def endRun (s : LoopState) (t : Int) (ok : Bool) : LoopState :=
  if s.crimeDetected then
    if s.outOpen then
      { s with crimeCount := 0, crimeDetected := false, outOpen := false,
               lastAlert := (send_alert s.lastAlert t ok false).1,
               events := s.events ++ [Ev.closed, Ev.uploaded clipPath]
                           ++ (send_alert s.lastAlert t ok false).2 }
    else { s with crimeCount := 0, crimeDetected := false }
  else { s with crimeCount := 0 }

/-- The line 127 append: all_predictions.append((pred_class, confidence)). -/
def addPred (s : LoopState) (p : String × ℚ) : LoopState :=
  { s with preds := s.preds ++ [p] }

/-- Processing of one successful classification (app.py lines 127-148):
record the prediction, then branch on the qualifying test. -/
def onPrediction (s : LoopState) (f : Frame) (p : String × ℚ) : LoopState :=
  if qualifies p then startOrContinue (addPred s p) f.time f.notifyOk
  else endRun (addPred s p) f.time f.notifyOk

/-- State change of a frame that passes the decimation test (app.py
lines 122-124): it is forwarded into the bounded deque. -/
def stepFwd (s : LoopState) : LoopState :=
  { s with frameCount := s.frameCount + 1,
           bufLen := min (s.bufLen + 1) SEQ_LENGTH,
           offered := s.offered + 1 }

/-- One iteration of the while-loop of app.py (lines 119-148) on a
successfully read frame: increment frame_count, apply the decimation
test, append to the bounded deque, and classify once the deque holds
SEQ_LENGTH frames.  A raising predict_activity call propagates as
Except.error, exactly as the unguarded call on line 127 would. -/
def processFrame (s : LoopState) (f : Frame) : Except Unit LoopState :=
  if (s.frameCount + 1) % FRAME_SKIP ≠ 0 then
    Except.ok { s with frameCount := s.frameCount + 1 }
  else if min (s.bufLen + 1) SEQ_LENGTH = SEQ_LENGTH then
    match f.pred with
    | Except.error e => Except.error e
    | Except.ok p => Except.ok (onPrediction (stepFwd s) f p)
  else Except.ok (stepFwd s)

/-- The whole while-loop over the finite frame stream. -/
def runFrames : LoopState → List Frame → Except Unit LoopState
  | s, [] => Except.ok s
  | s, f :: fs =>
    match processFrame s f with
    | Except.error e => Except.error e
    | Except.ok s1 => runFrames s1 fs

/-- The post-loop cleanup of app.py lines 151-153: if the writer is
still open it is released (and nothing else happens: no upload, no
alert). -/
def finalize (s : LoopState) : LoopState :=
  if s.outOpen then { s with outOpen := false, events := s.events ++ [Ev.closed] }
  else s

/-- Loop plus cleanup: the full effectful part of upload_video on a
successfully saved video. -/
def uploadVideoTrace (frames : List Frame) : Except Unit LoopState :=
  match runFrames initState frames with
  | Except.error e => Except.error e
  | Except.ok s => Except.ok (finalize s)

/-- Python max over a non-empty list with key = confidence, unfolded as
its accumulator loop: the accumulator is replaced only on a strictly
greater key, so the first maximal element wins. -/
def pyMax : (String × ℚ) → List (String × ℚ) → (String × ℚ)
  | best, [] => best
  | best, x :: xs => pyMax (if best.2 < x.2 then x else best) xs

/-- best_pred selection of app.py lines 156-160, including the
no-predictions sentinel. -/
def bestPrediction : List (String × ℚ) → (String × ℚ)
  | [] => ("Unknown", 0)
  | x :: xs => pyMax x xs

/-- The HTTP response of upload_video: either the 400 error payload or
the normal prediction payload (confidence kept exact; the JSON layer
rounds it to two decimals). -/
inductive Response where
  | error (msg : String)
  | result (label : String) (confidence : ℚ)
deriving DecidableEq, Repr

/-- upload_video of app.py (lines 102-165).  The argument is none when
no video payload is supplied; otherwise it is the list of frames the
decoder yields (an unopenable or undecodable video yields no frames:
cv2.VideoCapture does not raise, its first read just fails).  The
Except.error case is an uncaught exception escaping the handler. -/
def upload_video (file : Option (List Frame)) : Except Unit Response :=
  match file with
  | none => Except.ok (Response.error "No video uploaded")
  | some frames =>
    match uploadVideoTrace frames with
    | Except.error e => Except.error e
    | Except.ok s =>
      Except.ok (Response.result (bestPrediction s.preds).1 (bestPrediction s.preds).2)

/-- Length of the current streak of qualifying predictions at the end of
the list, written as the same fold that crime_frame_count performs. -/
def qualSuffix (l : List (String × ℚ)) : Nat :=
  l.foldl (fun c p => if qualifies p then c + 1 else 0) 0

/-- Every file-naming event of the program uses the constant clip path. -/
def pathOk : Ev → Prop
  | Ev.opened p => p = clipPath
  | Ev.uploaded p => p = clipPath
  | _ => True

/-- The loop invariant of upload_video: the deque length and the number
of recorded predictions are determined by the decimation counter, the
crime-run flag holds exactly when the trailing streak of qualifying
predictions has reached 5, the counter equals that streak, the writer is
open exactly while the flag holds, and all paths are the constant one. -/
def Inv (s : LoopState) : Prop :=
  s.bufLen = min s.offered SEQ_LENGTH ∧
  s.offered = s.frameCount / FRAME_SKIP ∧
  s.preds.length = s.offered - (SEQ_LENGTH - 1) ∧
  (s.crimeDetected = true ↔ 5 ≤ s.crimeCount) ∧
  s.crimeCount = qualSuffix s.preds ∧
  s.outOpen = s.crimeDetected ∧
  (∀ e ∈ s.events, pathOk e)

lemma qualSuffix_append (l : List (String × ℚ)) (p : String × ℚ) :
    qualSuffix (l ++ [p]) = if qualifies p then qualSuffix l + 1 else 0 := by
  simp [qualSuffix, List.foldl_append]

lemma send_alert_events {l t : Int} {ok w : Bool} :
    ∀ e ∈ (send_alert l t ok w).2, pathOk e ∧ e ≠ Ev.closed := by
  unfold send_alert
  split
  · simp
  · split <;> simp [pathOk]

lemma send_alert_dropped {l t : Int} {ok w : Bool} (h : t - l < ALERT_INTERVAL) :
    send_alert l t ok w = (l, []) := by
  unfold send_alert
  rw [if_pos h]

/-- While a run is already open, a further qualifying prediction only
increments the counter and writes the frame. -/
lemma startOrContinue_recording {s : LoopState} {t : Int} {ok : Bool}
    (hd : s.crimeDetected = true) (ho : s.outOpen = true) :
    startOrContinue s t ok =
      { s with crimeCount := s.crimeCount + 1, events := s.events ++ [Ev.wrote] } := by
  simp [startOrContinue, hd, ho]

/-- While a run is open, a non-qualifying prediction closes the writer,
uploads the clip and calls send_alert for the confirmation message. -/
lemma endRun_recording {s : LoopState} {t : Int} {ok : Bool}
    (hd : s.crimeDetected = true) (ho : s.outOpen = true) :
    endRun s t ok =
      { s with crimeCount := 0, crimeDetected := false, outOpen := false,
               lastAlert := (send_alert s.lastAlert t ok false).1,
               events := s.events ++ [Ev.closed, Ev.uploaded clipPath]
                           ++ (send_alert s.lastAlert t ok false).2 } := by
  unfold endRun
  simp [hd, ho]

/-- With the counter about to reach 5 while no run is open, a qualifying
prediction opens the writer, issues the warning and writes the frame. -/
lemma startOrContinue_start {s : LoopState} {t : Int} {ok : Bool}
    (hd : s.crimeDetected = false) (hcc : 5 ≤ s.crimeCount + 1) :
    startOrContinue s t ok =
      { s with crimeCount := s.crimeCount + 1, crimeDetected := true, outOpen := true,
               lastAlert := (send_alert s.lastAlert t ok true).1,
               events := s.events ++ [Ev.opened clipPath]
                           ++ (send_alert s.lastAlert t ok true).2 ++ [Ev.wrote] } := by
  simp [startOrContinue, hd, hcc]

/-- Below the threshold and with no run open, a qualifying prediction
only increments the counter. -/
lemma startOrContinue_idle {s : LoopState} {t : Int} {ok : Bool}
    (hd : s.crimeDetected = false) (hcc : s.crimeCount + 1 < 5) :
    startOrContinue s t ok = { s with crimeCount := s.crimeCount + 1 } := by
  simp [startOrContinue, hd, Nat.not_le.mpr hcc]

/-- With no run open, a non-qualifying prediction only resets the counter. -/
lemma endRun_idle {s : LoopState} {t : Int} {ok : Bool}
    (hd : s.crimeDetected = false) :
    endRun s t ok = { s with crimeCount := 0 } := by
  simp [endRun, hd]

lemma inv_init : Inv initState := by
  refine ⟨rfl, rfl, rfl, by simp [initState], rfl, rfl, by simp [initState]⟩

lemma pathOk_append {l1 l2 : List Ev} (a : ∀ e ∈ l1, pathOk e) (b : ∀ e ∈ l2, pathOk e) :
    ∀ e ∈ l1 ++ l2, pathOk e := by
  intro e he
  rcases List.mem_append.mp he with h | h
  · exact a e h
  · exact b e h

lemma pathOk_singleton {x : Ev} (h : pathOk x) : ∀ e ∈ [x], pathOk e := by
  intro e he
  rw [List.mem_singleton] at he
  subst he
  exact h

lemma pathOk_pair {x y : Ev} (hx : pathOk x) (hy : pathOk y) : ∀ e ∈ [x, y], pathOk e := by
  intro e he
  rcases List.mem_cons.mp he with rfl | he
  · exact hx
  · rw [List.mem_singleton] at he
    subst he
    exact hy

lemma send_alert_pathOk {l t : Int} {ok w : Bool} :
    ∀ e ∈ (send_alert l t ok w).2, pathOk e :=
  fun e he => (send_alert_events e he).1

/-- One loop iteration preserves the invariant and advances the frame
counter by one. -/
lemma processFrame_inv {s s' : LoopState} {f : Frame}
    (h : processFrame s f = Except.ok s') (hs : Inv s) :
    Inv s' ∧ s'.frameCount = s.frameCount + 1 := by
  obtain ⟨h1, h2, h3, h4, h5, h6, h7⟩ := hs
  unfold processFrame at h
  by_cases hmod : (s.frameCount + 1) % FRAME_SKIP ≠ 0
  · rw [if_pos hmod] at h
    injection h with h
    subst h
    refine ⟨⟨h1, ?_, h3, h4, h5, h6, h7⟩, rfl⟩
    show s.offered = (s.frameCount + 1) / FRAME_SKIP
    simp only [FRAME_SKIP] at *
    omega
  · rw [if_neg hmod] at h
    push_neg at hmod
    have hoff : s.offered + 1 = (s.frameCount + 1) / FRAME_SKIP := by
      simp only [FRAME_SKIP] at *
      omega
    have hbuf : min (s.bufLen + 1) SEQ_LENGTH = min (s.offered + 1) SEQ_LENGTH := by
      simp only [SEQ_LENGTH] at *
      omega
    by_cases hfull : min (s.bufLen + 1) SEQ_LENGTH = SEQ_LENGTH
    · rw [if_pos hfull] at h
      cases hp : f.pred with
      | error e => rw [hp] at h; exact absurd h (by simp)
      | ok p =>
        rw [hp] at h
        injection h with h
        subst h
        have hlen : (s.preds ++ [p]).length = (s.offered + 1) - (SEQ_LENGTH - 1) := by
          simp only [SEQ_LENGTH] at *
          simp only [List.length_append, List.length_singleton, h3]
          omega
        have hqs := qualSuffix_append s.preds p
        by_cases hq : qualifies p = true
        · have hon : onPrediction (stepFwd s) f p
              = startOrContinue (addPred (stepFwd s) p) f.time f.notifyOk := by
            unfold onPrediction
            rw [if_pos hq]
          rw [hon]
          simp only [hq, if_true] at hqs
          by_cases hd : s.crimeDetected = true
          · have ho : s.outOpen = true := h6.trans hd
            rw [startOrContinue_recording (s := addPred (stepFwd s) p) hd ho]
            refine ⟨⟨hbuf, hoff, hlen, ?_, ?_, ?_, ?_⟩, rfl⟩
            · exact ⟨fun _ => Nat.le_succ_of_le (h4.mp hd), fun _ => hd⟩
            · show s.crimeCount + 1 = qualSuffix (s.preds ++ [p])
              rw [hqs, h5]
            · exact h6
            · show ∀ e ∈ s.events ++ [Ev.wrote], pathOk e
              exact pathOk_append h7 (pathOk_singleton trivial)
          · replace hd : s.crimeDetected = false := by
              cases hcd : s.crimeDetected
              · rfl
              · exact absurd hcd hd
            by_cases hcc : 5 ≤ s.crimeCount + 1
            · rw [startOrContinue_start (s := addPred (stepFwd s) p) hd hcc]
              refine ⟨⟨hbuf, hoff, hlen, ?_, ?_, rfl, ?_⟩, rfl⟩
              · exact ⟨fun _ => hcc, fun _ => rfl⟩
              · show s.crimeCount + 1 = qualSuffix (s.preds ++ [p])
                rw [hqs, h5]
              · show ∀ e ∈ s.events ++ [Ev.opened clipPath]
                    ++ (send_alert s.lastAlert f.time f.notifyOk true).2 ++ [Ev.wrote], pathOk e
                exact pathOk_append
                  (pathOk_append (pathOk_append h7 (pathOk_singleton rfl)) send_alert_pathOk)
                  (pathOk_singleton trivial)
            · rw [startOrContinue_idle (s := addPred (stepFwd s) p) hd
                    (show s.crimeCount + 1 < 5 by omega)]
              refine ⟨⟨hbuf, hoff, hlen, ?_, ?_, ?_, h7⟩, rfl⟩
              · constructor
                · intro hf
                  have hf2 : s.crimeDetected = true := hf
                  rw [hd] at hf2
                  exact absurd hf2 (by simp)
                · intro hf
                  exact absurd hf hcc
              · show s.crimeCount + 1 = qualSuffix (s.preds ++ [p])
                rw [hqs, h5]
              · exact h6
        · replace hq : qualifies p = false := by
            cases hqq : qualifies p
            · rfl
            · exact absurd hqq hq
          have hon : onPrediction (stepFwd s) f p
              = endRun (addPred (stepFwd s) p) f.time f.notifyOk := by
            unfold onPrediction
            rw [if_neg (by simp [hq])]
          rw [hon]
          simp only [hq] at hqs
          simp only [Bool.false_eq_true, if_false] at hqs
          by_cases hd : s.crimeDetected = true
          · have ho : s.outOpen = true := h6.trans hd
            rw [endRun_recording (s := addPred (stepFwd s) p) hd ho]
            refine ⟨⟨hbuf, hoff, hlen, by simp, ?_, rfl, ?_⟩, rfl⟩
            · show (0 : Nat) = qualSuffix (s.preds ++ [p])
              exact hqs.symm
            · show ∀ e ∈ s.events ++ [Ev.closed, Ev.uploaded clipPath]
                  ++ (send_alert s.lastAlert f.time f.notifyOk false).2, pathOk e
              exact pathOk_append (pathOk_append h7 (pathOk_pair trivial rfl)) send_alert_pathOk
          · replace hd : s.crimeDetected = false := by
              cases hcd : s.crimeDetected
              · rfl
              · exact absurd hcd hd
            rw [endRun_idle (s := addPred (stepFwd s) p)
                  (show (addPred (stepFwd s) p).crimeDetected = false from hd)]
            refine ⟨⟨hbuf, hoff, hlen, ?_, ?_, ?_, h7⟩, rfl⟩
            · constructor
              · intro hf
                have hf2 : s.crimeDetected = true := hf
                rw [hd] at hf2
                exact absurd hf2 (by simp)
              · intro hf
                exact absurd (show (5 : Nat) ≤ 0 from hf) (by decide)
            · show (0 : Nat) = qualSuffix (s.preds ++ [p])
              exact hqs.symm
            · exact h6
    · rw [if_neg hfull] at h
      injection h with h
      subst h
      refine ⟨⟨hbuf, hoff, ?_, h4, h5, h6, h7⟩, rfl⟩
      show s.preds.length = (s.offered + 1) - (SEQ_LENGTH - 1)
      rw [hbuf] at hfull
      simp only [SEQ_LENGTH] at *
      omega


lemma runFrames_inv : ∀ (fs : List Frame) {s s' : LoopState},
    runFrames s fs = Except.ok s' → Inv s →
    Inv s' ∧ s'.frameCount = s.frameCount + fs.length
  | [], s, s', h, hs => by
    injection h with h
    subst h
    exact ⟨hs, by simp⟩
  | f :: fs, s, s', h, hs => by
    unfold runFrames at h
    cases hp : processFrame s f with
    | error e => rw [hp] at h; exact absurd h (by simp)
    | ok s1 =>
      rw [hp] at h
      obtain ⟨hi, hf⟩ := processFrame_inv hp hs
      obtain ⟨hi2, hf2⟩ := runFrames_inv fs h hi
      refine ⟨hi2, ?_⟩
      rw [hf2, hf]
      simp only [List.length_cons]
      omega

/-- The event trace is append-only across one loop iteration. -/
lemma processFrame_events {s s' : LoopState} {f : Frame}
    (h : processFrame s f = Except.ok s') :
    ∃ d, s'.events = s.events ++ d := by
  unfold processFrame at h
  by_cases hmod : (s.frameCount + 1) % FRAME_SKIP ≠ 0
  · rw [if_pos hmod] at h
    injection h with h
    subst h
    exact ⟨[], by simp⟩
  · rw [if_neg hmod] at h
    by_cases hfull : min (s.bufLen + 1) SEQ_LENGTH = SEQ_LENGTH
    · rw [if_pos hfull] at h
      cases hp : f.pred with
      | error e => rw [hp] at h; exact absurd h (by simp)
      | ok p =>
        rw [hp] at h
        injection h with h
        subst h
        unfold onPrediction startOrContinue endRun addPred stepFwd
        split <;> [skip; skip] <;> split
        · exact ⟨[Ev.opened clipPath] ++ (send_alert s.lastAlert f.time f.notifyOk true).2
                  ++ [Ev.wrote], by simp⟩
        · split
          · exact ⟨[Ev.wrote], by simp⟩
          · exact ⟨[], by simp⟩
        · split
          · exact ⟨[Ev.closed, Ev.uploaded clipPath]
                    ++ (send_alert s.lastAlert f.time f.notifyOk false).2, by simp⟩
          · exact ⟨[], by simp⟩
        · exact ⟨[], by simp⟩
    · rw [if_neg hfull] at h
      injection h with h
      subst h
      exact ⟨[], by simp [stepFwd]⟩

/-- The event trace is append-only across the whole loop. -/
lemma runFrames_events : ∀ (fs : List Frame) {s s' : LoopState},
    runFrames s fs = Except.ok s' → ∃ d, s'.events = s.events ++ d
  | [], s, s', h => by
    injection h with h
    subst h
    exact ⟨[], by simp⟩
  | f :: fs, s, s', h => by
    unfold runFrames at h
    cases hp : processFrame s f with
    | error e => rw [hp] at h; exact absurd h (by simp)
    | ok s1 =>
      rw [hp] at h
      obtain ⟨d1, hd1⟩ := processFrame_events hp
      obtain ⟨d2, hd2⟩ := runFrames_events fs h
      exact ⟨d1 ++ d2, by rw [hd2, hd1, List.append_assoc]⟩

/-- The number of closed-writer events never decreases across the loop. -/
lemma runFrames_closed_mono {fs : List Frame} {s s' : LoopState}
    (h : runFrames s fs = Except.ok s') :
    List.count Ev.closed s.events ≤ List.count Ev.closed s'.events := by
  obtain ⟨d, hd⟩ := runFrames_events fs h
  rw [hd, List.count_append]
  omega

lemma ne_append_of_ne_nil {α : Type} {l d : List α} (h : d ≠ []) : l ≠ l ++ d := by
  intro he
  have hl := congrArg List.length he
  rw [List.length_append] at hl
  exact h (List.eq_nil_of_length_eq_zero (by omega))

lemma send_alert_cases (l t : Int) (ok w : Bool) :
    send_alert l t ok w = (l, []) ∨ send_alert l t ok w = (t, [Ev.alertSent w]) ∨
    send_alert l t ok w = (l, [Ev.alertFailed w]) := by
  unfold send_alert
  split
  · exact Or.inl rfl
  · split
    · exact Or.inr (Or.inl rfl)
    · exact Or.inr (Or.inr rfl)

lemma send_alert_count_closed {l t : Int} {ok w : Bool} :
    List.count Ev.closed (send_alert l t ok w).2 = 0 := by
  rcases send_alert_cases l t ok w with hr | hr | hr <;> rw [hr] <;> cases w <;> rfl

/-- While a run stays open across a stretch of the loop (witnessed by no
new closed-writer event), the throttle timestamp is untouched: the only
alert site between a run start and its end is unreachable. -/
lemma recording_run : ∀ (fs : List Frame) {s s' : LoopState},
    runFrames s fs = Except.ok s' → s.crimeDetected = true → s.outOpen = true →
    s'.crimeDetected = true →
    List.count Ev.closed s'.events = List.count Ev.closed s.events →
    s'.lastAlert = s.lastAlert ∧ s'.outOpen = true
  | [], s, s', h, _, ho, _, _ => by
    injection h with h
    subst h
    exact ⟨rfl, ho⟩
  | f :: fs, s, s', h, hd, ho, hd', hc => by
    unfold runFrames at h
    cases hp : processFrame s f with
    | error e => rw [hp] at h; exact absurd h (by simp)
    | ok s1 =>
      rw [hp] at h
      replace h : runFrames s1 fs = Except.ok s' := h
      unfold processFrame at hp
      by_cases hmod : (s.frameCount + 1) % FRAME_SKIP ≠ 0
      · rw [if_pos hmod] at hp
        injection hp with hp
        subst hp
        have hrec := recording_run fs h hd ho hd' hc
        exact hrec
      · rw [if_neg hmod] at hp
        by_cases hfull : min (s.bufLen + 1) SEQ_LENGTH = SEQ_LENGTH
        · rw [if_pos hfull] at hp
          cases hpr : f.pred with
          | error e => rw [hpr] at hp; exact absurd hp (by simp)
          | ok p =>
            rw [hpr] at hp
            injection hp with hp
            subst hp
            by_cases hq : qualifies p = true
            · have hs1 : onPrediction (stepFwd s) f p
                  = { addPred (stepFwd s) p with
                      crimeCount := (addPred (stepFwd s) p).crimeCount + 1,
                      events := (addPred (stepFwd s) p).events ++ [Ev.wrote] } := by
                unfold onPrediction
                rw [if_pos hq,
                    startOrContinue_recording (s := addPred (stepFwd s) p) hd ho]
              rw [hs1] at h
              have hcnt : List.count Ev.closed
                  ((addPred (stepFwd s) p).events ++ [Ev.wrote])
                  = List.count Ev.closed s.events := by
                rw [List.count_append]
                simp [addPred, stepFwd]
              have hrec := recording_run fs h hd ho hd' (hc.trans hcnt.symm)
              exact hrec
            · have hs1 : onPrediction (stepFwd s) f p
                  = { addPred (stepFwd s) p with
                      crimeCount := 0, crimeDetected := false, outOpen := false,
                      lastAlert := (send_alert (addPred (stepFwd s) p).lastAlert
                                      f.time f.notifyOk false).1,
                      events := (addPred (stepFwd s) p).events
                                  ++ [Ev.closed, Ev.uploaded clipPath]
                                  ++ (send_alert (addPred (stepFwd s) p).lastAlert
                                        f.time f.notifyOk false).2 } := by
                unfold onPrediction
                rw [if_neg hq, endRun_recording (s := addPred (stepFwd s) p) hd ho]
              rw [hs1] at h
              have hmono := runFrames_closed_mono h
              have hone : List.count Ev.closed
                  ((addPred (stepFwd s) p).events
                    ++ [Ev.closed, Ev.uploaded clipPath]
                    ++ (send_alert (addPred (stepFwd s) p).lastAlert
                          f.time f.notifyOk false).2)
                  = List.count Ev.closed s.events + 1 := by
                rw [List.count_append, List.count_append, send_alert_count_closed]
                simp [addPred, stepFwd]
              rw [hone] at hmono
              omega
        · rw [if_neg hfull] at hp
          injection hp with hp
          subst hp
          have hrec := recording_run fs h hd ho hd' hc
          exact hrec

/-- If one loop iteration both raises the crime flag and emits exactly
the open-writer event, a delivered warning and a frame write, then this
iteration is the run start and a successfully delivered warning advanced
the throttle timestamp to the clock value of this iteration. -/
lemma start_step_success {sa sb : LoopState} {f0 : Frame}
    (h : processFrame sa f0 = Except.ok sb)
    (hev : sb.events = sa.events ++ [Ev.opened clipPath, Ev.alertSent true, Ev.wrote]) :
    sb.lastAlert = f0.time ∧ sb.crimeDetected = true ∧ sb.outOpen = true := by
  unfold processFrame at h
  by_cases hmod : (sa.frameCount + 1) % FRAME_SKIP ≠ 0
  · rw [if_pos hmod] at h
    injection h with h
    subst h
    exact absurd hev (ne_append_of_ne_nil (by simp))
  · rw [if_neg hmod] at h
    by_cases hfull : min (sa.bufLen + 1) SEQ_LENGTH = SEQ_LENGTH
    · rw [if_pos hfull] at h
      cases hpr : f0.pred with
      | error e => rw [hpr] at h; exact absurd h (by simp)
      | ok p =>
        rw [hpr] at h
        injection h with h
        subst h
        unfold onPrediction at hev ⊢
        by_cases hq : qualifies p = true
        · rw [if_pos hq] at hev ⊢
          unfold startOrContinue at hev ⊢
          by_cases hg : 5 ≤ (addPred (stepFwd sa) p).crimeCount + 1
              ∧ (addPred (stepFwd sa) p).crimeDetected = false
          · rw [if_pos hg] at hev ⊢
            rcases send_alert_cases (addPred (stepFwd sa) p).lastAlert
                f0.time f0.notifyOk true with hr | hr | hr
            · rw [hr] at hev
              simp [addPred, stepFwd] at hev
            · exact ⟨by simp [hr], rfl, rfl⟩
            · rw [hr] at hev
              simp [addPred, stepFwd] at hev
          · rw [if_neg hg] at hev ⊢
            by_cases hw : ((addPred (stepFwd sa) p).crimeDetected
                && (addPred (stepFwd sa) p).outOpen) = true
            · rw [if_pos hw] at hev ⊢
              simp [addPred, stepFwd] at hev
            · rw [if_neg hw] at hev ⊢
              simp only [addPred, stepFwd] at hev
              exact absurd hev (ne_append_of_ne_nil (by simp))
        · rw [if_neg hq] at hev ⊢
          unfold endRun at hev ⊢
          by_cases hd : (addPred (stepFwd sa) p).crimeDetected = true
          · rw [if_pos hd] at hev ⊢
            by_cases ho : (addPred (stepFwd sa) p).outOpen = true
            · rw [if_pos ho] at hev ⊢
              simp [addPred, stepFwd] at hev
            · rw [if_neg ho] at hev ⊢
              simp only [addPred, stepFwd] at hev
              exact absurd hev (ne_append_of_ne_nil (by simp))
          · rw [if_neg hd] at hev ⊢
            simp only [addPred, stepFwd] at hev
            exact absurd hev (ne_append_of_ne_nil (by simp))
    · rw [if_neg hfull] at h
      injection h with h
      subst h
      exact absurd hev (ne_append_of_ne_nil (by simp))

/-- A prediction step that ends an open run within ALERT_INTERVAL of the
throttle timestamp closes the writer and uploads the clip, but emits no
alert event at all: the confirmation is silently dropped. -/
lemma end_step_dropped {sc sd : LoopState} {f1 : Frame} {p1 : String × ℚ}
    (h : processFrame sc f1 = Except.ok sd)
    (hmod : (sc.frameCount + 1) % FRAME_SKIP = 0)
    (hbuf : SEQ_LENGTH ≤ sc.bufLen + 1)
    (hp : f1.pred = Except.ok p1)
    (hq : qualifies p1 = false)
    (hd : sc.crimeDetected = true)
    (ho : sc.outOpen = true)
    (ht : f1.time - sc.lastAlert < ALERT_INTERVAL) :
    sd.events = sc.events ++ [Ev.closed, Ev.uploaded clipPath]
      ∧ sd.crimeDetected = false ∧ sd.lastAlert = sc.lastAlert := by
  unfold processFrame at h
  rw [if_neg (not_ne_iff.mpr hmod)] at h
  rw [if_pos (by omega : min (sc.bufLen + 1) SEQ_LENGTH = SEQ_LENGTH)] at h
  rw [hp] at h
  injection h with h
  subst h
  have hdd : (addPred (stepFwd sc) p1).crimeDetected = true := hd
  have hoo : (addPred (stepFwd sc) p1).outOpen = true := ho
  have hsb : onPrediction (stepFwd sc) f1 p1
      = { addPred (stepFwd sc) p1 with
          crimeCount := 0, crimeDetected := false, outOpen := false,
          lastAlert := (send_alert (addPred (stepFwd sc) p1).lastAlert
                          f1.time f1.notifyOk false).1,
          events := (addPred (stepFwd sc) p1).events
                      ++ [Ev.closed, Ev.uploaded clipPath]
                      ++ (send_alert (addPred (stepFwd sc) p1).lastAlert
                            f1.time f1.notifyOk false).2 } := by
    unfold onPrediction
    rw [if_neg (by simp [hq]), endRun_recording (s := addPred (stepFwd sc) p1) hdd hoo]
  rw [hsb]
  have hdrop : send_alert (addPred (stepFwd sc) p1).lastAlert f1.time f1.notifyOk false
      = ((addPred (stepFwd sc) p1).lastAlert, []) := send_alert_dropped ht
  refine ⟨?_, rfl, ?_⟩
  · show (addPred (stepFwd sc) p1).events ++ [Ev.closed, Ev.uploaded clipPath]
        ++ (send_alert (addPred (stepFwd sc) p1).lastAlert f1.time f1.notifyOk false).2
        = sc.events ++ [Ev.closed, Ev.uploaded clipPath]
    rw [hdrop]
    simp [addPred, stepFwd]
  · show (send_alert (addPred (stepFwd sc) p1).lastAlert f1.time f1.notifyOk false).1
        = sc.lastAlert
    rw [hdrop]
    rfl

lemma pyMax_acc_le : ∀ (xs : List (String × ℚ)) (acc : String × ℚ),
    acc.2 ≤ (pyMax acc xs).2
  | [], _ => le_refl _
  | x :: xs, acc => by
    unfold pyMax
    by_cases h : acc.2 < x.2
    · rw [if_pos h]
      exact le_of_lt (lt_of_lt_of_le h (pyMax_acc_le xs x))
    · rw [if_neg h]
      exact pyMax_acc_le xs acc

/-- Python max over acc :: xs splits the list into a strict prefix, the
returned element, and a suffix it dominates: the stable max. -/
lemma pyMax_split : ∀ (xs : List (String × ℚ)) (acc : String × ℚ),
    ∃ l1 l2, acc :: xs = l1 ++ pyMax acc xs :: l2 ∧
      (∀ q ∈ l1, q.2 < (pyMax acc xs).2) ∧ (∀ q ∈ l2, q.2 ≤ (pyMax acc xs).2)
  | [], acc => ⟨[], [], rfl, by simp, by simp⟩
  | x :: xs, acc => by
    unfold pyMax
    by_cases h : acc.2 < x.2
    · rw [if_pos h]
      obtain ⟨l1, l2, he, hb1, hb2⟩ := pyMax_split xs x
      refine ⟨acc :: l1, l2, ?_, ?_, hb2⟩
      · rw [List.cons_append, ← he]
      · intro q hq
        rcases List.mem_cons.mp hq with rfl | hq
        · exact lt_of_lt_of_le h (pyMax_acc_le xs x)
        · exact hb1 q hq
    · rw [if_neg h]
      obtain ⟨l1, l2, he, hb1, hb2⟩ := pyMax_split xs acc
      cases l1 with
      | nil =>
        simp only [List.nil_append] at he
        injection he with he1 he2
        refine ⟨[], x :: l2, ?_, by simp, ?_⟩
        · simp only [List.nil_append]
          rw [← he1, ← he2]
        · intro q hq
          rcases List.mem_cons.mp hq with rfl | hq
          · rw [← he1]
            exact not_lt.mp h
          · exact hb2 q hq
      | cons a l1x =>
        simp only [List.cons_append] at he
        injection he with he1 he2
        have hacc : acc.2 < (pyMax acc xs).2 := by
          have ha := hb1 a (by simp)
          rwa [← he1] at ha
        refine ⟨acc :: x :: l1x, l2, ?_, ?_, hb2⟩
        · simp only [List.cons_append]
          exact congrArg (fun l => acc :: x :: l) he2
        · intro q hq
          rcases List.mem_cons.mp hq with rfl | hq
          · exact hacc
          · rcases List.mem_cons.mp hq with rfl | hq
            · exact lt_of_le_of_lt (not_lt.mp h) hacc
            · exact hb1 q (by simp [hq])

/-- A video short enough that the deque never fills runs the loop with
no classifier call, hence without any possibility of failure. -/
lemma runFrames_total_small : ∀ (fs : List Frame) (s : LoopState),
    s.bufLen = min s.offered SEQ_LENGTH → s.offered = s.frameCount / FRAME_SKIP →
    (s.frameCount + fs.length) / FRAME_SKIP < SEQ_LENGTH →
    ∃ s2, runFrames s fs = Except.ok s2
  | [], s, _, _, _ => ⟨s, rfl⟩
  | f :: fs, s, h1, h2, h3 => by
    unfold runFrames processFrame
    by_cases hmod : (s.frameCount + 1) % FRAME_SKIP ≠ 0
    · rw [if_pos hmod]
      obtain ⟨s2, h4⟩ := runFrames_total_small fs { s with frameCount := s.frameCount + 1 }
        h1
        (by simp only [FRAME_SKIP] at *; omega)
        (by simp only [List.length_cons] at h3; simp only [FRAME_SKIP, SEQ_LENGTH] at *; omega)
      exact ⟨s2, h4⟩
    · rw [if_neg hmod]
      push_neg at hmod
      have hne : min (s.bufLen + 1) SEQ_LENGTH ≠ SEQ_LENGTH := by
        have hlt : (s.frameCount + 1) / FRAME_SKIP < SEQ_LENGTH := by
          have hle : s.frameCount + 1 ≤ s.frameCount + (f :: fs).length := by simp
          exact lt_of_le_of_lt (Nat.div_le_div_right hle) h3
        simp only [FRAME_SKIP, SEQ_LENGTH] at *
        omega
      rw [if_neg hne]
      obtain ⟨s2, h4⟩ := runFrames_total_small fs (stepFwd s)
        (by simp only [stepFwd, SEQ_LENGTH] at *; omega)
        (by simp only [stepFwd, FRAME_SKIP] at *; omega)
        (by simp only [stepFwd, List.length_cons] at *
            simp only [FRAME_SKIP, SEQ_LENGTH] at *
            omega)
      exact ⟨s2, h4⟩

lemma finalize_outOpen (s : LoopState) : (finalize s).outOpen = false := by
  unfold finalize
  split
  · rfl
  · rename_i h
    simpa using h

lemma finalize_of_open {s : LoopState} (h : s.outOpen = true) :
    finalize s = { s with outOpen := false, events := s.events ++ [Ev.closed] } := by
  unfold finalize
  rw [if_pos h]

lemma finalize_of_idle {s : LoopState} (h : s.outOpen = false) : finalize s = s := by
  unfold finalize
  rw [if_neg (by simp [h])]

lemma finalize_preds (s : LoopState) : (finalize s).preds = s.preds := by
  unfold finalize
  split <;> rfl

lemma uploadVideoTrace_ok {frames : List Frame} {s : LoopState}
    (h : runFrames initState frames = Except.ok s) :
    uploadVideoTrace frames = Except.ok (finalize s) := by
  unfold uploadVideoTrace
  rw [h]

lemma upload_video_some {frames : List Frame} {s : LoopState}
    (h : uploadVideoTrace frames = Except.ok s) :
    upload_video (some frames)
      = Except.ok (Response.result (bestPrediction s.preds).1 (bestPrediction s.preds).2) := by
  show (match uploadVideoTrace frames with
    | Except.error e => Except.error e
    | Except.ok s => Except.ok
        (Response.result (bestPrediction s.preds).1 (bestPrediction s.preds).2))
      = Except.ok (Response.result (bestPrediction s.preds).1 (bestPrediction s.preds).2)
  rw [h]

lemma onPrediction_preds (s : LoopState) (f : Frame) (p : String × ℚ) :
    (onPrediction s f p).preds = s.preds ++ [p] := by
  unfold onPrediction startOrContinue endRun addPred
  split
  · split
    · rfl
    · split <;> rfl
  · split
    · split <;> rfl
    · rfl

lemma onPrediction_offered (s : LoopState) (f : Frame) (p : String × ℚ) :
    (onPrediction s f p).offered = s.offered := by
  unfold onPrediction startOrContinue endRun addPred
  split
  · split
    · rfl
    · split <;> rfl
  · split
    · split <;> rfl
    · rfl

/-- A loop iteration forwards the frame into the deque exactly when the
incremented frame counter is divisible by FRAME_SKIP. -/
lemma processFrame_offered {s0 s1 : LoopState} {f : Frame}
    (h : processFrame s0 f = Except.ok s1) :
    s1.offered = s0.offered + 1 ↔ (s0.frameCount + 1) % FRAME_SKIP = 0 := by
  unfold processFrame at h
  by_cases hmod : (s0.frameCount + 1) % FRAME_SKIP ≠ 0
  · rw [if_pos hmod] at h
    injection h with h
    subst h
    constructor
    · intro hoff
      exact absurd (show s0.offered = s0.offered + 1 from hoff) (by omega)
    · intro hz
      exact absurd hz hmod
  · rw [if_neg hmod] at h
    push_neg at hmod
    by_cases hfull : min (s0.bufLen + 1) SEQ_LENGTH = SEQ_LENGTH
    · rw [if_pos hfull] at h
      cases hpr : f.pred with
      | error e => rw [hpr] at h; exact absurd h (by simp)
      | ok p =>
        rw [hpr] at h
        injection h with h
        subst h
        have hoff : (onPrediction (stepFwd s0) f p).offered = s0.offered + 1 :=
          onPrediction_offered (stepFwd s0) f p
        exact iff_of_true hoff hmod
    · rw [if_neg hfull] at h
      injection h with h
      subst h
      exact iff_of_true rfl hmod

lemma endRun_resets (s : LoopState) (t : Int) (ok : Bool) :
    (endRun s t ok).crimeCount = 0 ∧ (endRun s t ok).crimeDetected = false := by
  unfold endRun
  split
  · split
    · exact ⟨rfl, rfl⟩
    · exact ⟨rfl, rfl⟩
  · rename_i hnd
    exact ⟨rfl, by simpa using hnd⟩

/-- A non-qualifying prediction resets the run counter to zero and ends
any open run, whatever the state was. -/
lemma step_nonqual_resets {s0 s1 : LoopState} {f : Frame} {p : String × ℚ}
    (h : processFrame s0 f = Except.ok s1) (hpred : s1.preds = s0.preds ++ [p])
    (hq : qualifies p = false) :
    s1.crimeCount = 0 ∧ s1.crimeDetected = false := by
  unfold processFrame at h
  by_cases hmod : (s0.frameCount + 1) % FRAME_SKIP ≠ 0
  · rw [if_pos hmod] at h
    injection h with h
    subst h
    exact absurd hpred (ne_append_of_ne_nil (by simp))
  · rw [if_neg hmod] at h
    by_cases hfull : min (s0.bufLen + 1) SEQ_LENGTH = SEQ_LENGTH
    · rw [if_pos hfull] at h
      cases hpr : f.pred with
      | error e => rw [hpr] at h; exact absurd h (by simp)
      | ok q =>
        rw [hpr] at h
        injection h with h
        subst h
        have hq2 : q = p := by
          have h1 : (onPrediction (stepFwd s0) f q).preds = s0.preds ++ [q] :=
            onPrediction_preds (stepFwd s0) f q
          have hc := List.append_cancel_left (h1.symm.trans hpred)
          simpa using hc
        subst hq2
        have hon : onPrediction (stepFwd s0) f q
            = endRun (addPred (stepFwd s0) q) f.time f.notifyOk := by
          unfold onPrediction
          rw [if_neg (by simp [hq])]
        rw [hon]
        exact endRun_resets _ _ _
    · rw [if_neg hfull] at h
      injection h with h
      subst h
      exact absurd hpred (ne_append_of_ne_nil (by simp))

/-!
Concrete inputs used by the witnesses and counterexamples below.
goodF is a frame whose window (when full) classifies as a qualifying
crime, badF one that does not qualify, errF one whose classifier call
raises.  The time field is the clock value send_alert would observe at
that step.
-/

def goodF (t : Int) : Frame := ⟨Except.ok ("robbery", ⟨9, 10, by decide, by decide⟩), t, true⟩

def badF (t : Int) : Frame := ⟨Except.ok ("normal", ⟨1, 2, by decide, by decide⟩), t, true⟩

def errF : Frame := ⟨Except.error (), 0, true⟩

/-- A 100-frame video whose every full window qualifies: the run opens
at physical frame 100 (the fifth prediction) and the stream ends while
the run is still open. -/
def demoRecFrames : List Frame := (List.range 100).map (fun _ => goodF 100)

/-- 79 physical frames: only 15 decimated frames, so the deque never
fills and no prediction is ever produced. -/
def demoShortFrames : List Frame := (List.range 79).map (fun _ => goodF 0)

/-- 79 good frames followed by one whose classifier call raises exactly
when the deque first reaches SEQ_LENGTH (physical frame 80). -/
def demoErrFrames : List Frame := demoShortFrames ++ [errF]

/-- A 130-frame video with two complete crime runs: the first opens at
frame 100 and is closed by a non-qualifying prediction at frame 105
(late enough for the confirmation to be delivered), the second opens at
frame 130 and is cut by the end of the stream. -/
def demoTwoRunFrames : List Frame :=
  ((List.range 100).map (fun _ => goodF 100)) ++ ((List.range 4).map (fun _ => goodF 104))
    ++ [badF 200] ++ ((List.range 25).map (fun _ => goodF 300))

/-- The frames before the run-start step of the short-run scenario. -/
def c9Prefix : List Frame := (List.range 99).map (fun _ => goodF 100)

/-- The skipped frames between the run start and the run end of the
short-run scenario. -/
def c9Mid : List Frame := (List.range 4).map (fun _ => goodF 104)

/-- The loop state reached on a frame list (initState if the loop
raises, which the uses below never hit). -/
def loopStateOf (fs : List Frame) : LoopState :=
  match runFrames initState fs with
  | Except.ok s => s
  | Except.error _ => initState

/-- The state after loop and cleanup on a frame list. -/
def traceStateOf (fs : List Frame) : LoopState :=
  match uploadVideoTrace fs with
  | Except.ok s => s
  | Except.error _ => initState

def c9sa : LoopState := loopStateOf c9Prefix

def c9sb : LoopState := loopStateOf (c9Prefix ++ [goodF 100])

def c9sc : LoopState := loopStateOf (c9Prefix ++ [goodF 100] ++ c9Mid)

def c9sd : LoopState := loopStateOf (c9Prefix ++ [goodF 100] ++ c9Mid ++ [badF 105])

/-- The writer-open flag at the end of the loop, before cleanup. -/
def loopOutOpen (fs : List Frame) : Bool := (loopStateOf fs).outOpen

/-- The full event trace of a request, cleanup included. -/
def traceEvents (fs : List Frame) : List Ev := (traceStateOf fs).events

/-- C1: over every input stream, the crime-run flag is raised exactly
when the trailing streak of qualifying predictions has length at least
5 — so a Recording episode starts precisely at the fifth consecutive
qualifying prediction and ends at the first non-qualifying one — the
run counter always equals that trailing streak (in particular it is
reset to 0 by any non-qualifying prediction, also before a run starts),
the writer is open exactly while the flag is up (so never more than one
episode is open), and the end-of-stream cleanup leaves no writer open.
Being proved for every frame list, the characterisation holds at every
prefix of a stream, i.e. after every step. -/
theorem crime_run_state_machine :
    ∀ (frames : List Frame) (s : LoopState), runFrames initState frames = Except.ok s →
      ((s.crimeDetected = true) ↔ 5 ≤ qualSuffix s.preds) ∧
      s.crimeCount = qualSuffix s.preds ∧
      s.outOpen = s.crimeDetected ∧
      (finalize s).outOpen = false ∧
      (∀ (s0 : LoopState) (f : Frame) (s1 : LoopState) (p : String × ℚ),
        processFrame s0 f = Except.ok s1 → s1.preds = s0.preds ++ [p] →
        qualifies p = false → s1.crimeCount = 0 ∧ s1.crimeDetected = false) := by
  intro frames s h
  obtain ⟨⟨_, _, _, h4, h5, h6, _⟩, _⟩ := runFrames_inv frames h inv_init
  refine ⟨?_, h5, h6, finalize_outOpen s, ?_⟩
  · rw [← h5]
    exact h4
  · intro s0 f s1 p hp hpred hq
    exact step_nonqual_resets hp hpred hq

theorem crime_run_witness :
    (((loopStateOf demoTwoRunFrames).crimeDetected = true)
        ↔ 5 ≤ qualSuffix (loopStateOf demoTwoRunFrames).preds) ∧
    (loopStateOf demoTwoRunFrames).crimeCount
        = qualSuffix (loopStateOf demoTwoRunFrames).preds ∧
    (loopStateOf demoTwoRunFrames).outOpen = (loopStateOf demoTwoRunFrames).crimeDetected ∧
    (finalize (loopStateOf demoTwoRunFrames)).outOpen = false := by
  obtain ⟨h1, h2, h3, h4, _⟩ :=
    crime_run_state_machine demoTwoRunFrames (loopStateOf demoTwoRunFrames) (by rfl)
  exact ⟨h1, h2, h3, h4⟩

/-- C2 counterexample: on demoRecFrames the stream ends while a run is
open (the pre-cleanup writer flag is true), yet the full request trace
contains no upload event and no confirmation alert event at all — only
the writer-release.  The close-and-handoff path of a detector-driven
run end does NOT execute at end of stream, contrary to the claim. -/
theorem stream_end_counterexample :
    loopOutOpen demoRecFrames = true ∧
    traceEvents demoRecFrames
      = [Ev.opened clipPath, Ev.alertSent true, Ev.wrote, Ev.closed] := by
  constructor
  · decide
  · decide

/-- C2 amended: if the stream is exhausted while a run is open, the
cleanup only releases the writer before the response is returned — the
clip is NOT handed to the uploader and no confirmation alert is sent
(the only event appended after the loop is the writer release). -/
theorem stream_end_amended :
    ∀ (frames : List Frame) (s : LoopState),
      runFrames initState frames = Except.ok s → s.outOpen = true →
      uploadVideoTrace frames = Except.ok (finalize s) ∧
      (finalize s).events = s.events ++ [Ev.closed] ∧
      (finalize s).outOpen = false := by
  intro frames s h ho
  refine ⟨uploadVideoTrace_ok h, ?_, finalize_outOpen s⟩
  rw [finalize_of_open ho]

theorem stream_end_witness :
    uploadVideoTrace demoRecFrames = Except.ok (finalize (loopStateOf demoRecFrames)) ∧
    (finalize (loopStateOf demoRecFrames)).events
      = (loopStateOf demoRecFrames).events ++ [Ev.closed] ∧
    (finalize (loopStateOf demoRecFrames)).outOpen = false :=
  stream_end_amended demoRecFrames (loopStateOf demoRecFrames) (by rfl) (by decide)

/-- C3 counterexample: a video that yields no decodable frame (the
first read fails, exactly what cv2.VideoCapture does on an unreadable
file) produces the NORMAL prediction response with the sentinel, not an
error response. -/
theorem unreadable_video_counterexample :
    upload_video (some []) = Except.ok (Response.result "Unknown" 0) := by
  rfl

/-- C3 amended: only a missing video payload yields an error response;
a video that cannot be opened or decoded yields zero frames and hence
the normal sentinel response (label Unknown, confidence 0), not an
error. -/
theorem unreadable_video_amended :
    upload_video none = Except.ok (Response.error "No video uploaded") ∧
    upload_video (some []) = Except.ok (Response.result "Unknown" 0) := by
  exact ⟨rfl, rfl⟩

/-- C4 counterexample: a classifier failure on the first full window
(physical frame 80) aborts the whole request — upload_video propagates
the exception instead of skipping the window. -/
theorem classifier_failure_counterexample :
    upload_video (some demoErrFrames) = Except.error () := by
  decide

/-- C4 amended: the classifier call on a full window is unguarded, so a
failing call makes the whole loop — and with it the whole request —
abort with that error; the prediction is not skipped and the pipeline
does not continue. -/
theorem classifier_failure_aborts :
    ∀ (s : LoopState) (f : Frame) (e : Unit) (fs : List Frame),
      (s.frameCount + 1) % FRAME_SKIP = 0 → SEQ_LENGTH ≤ s.bufLen + 1 →
      f.pred = Except.error e →
      runFrames s (f :: fs) = Except.error e ∧
      (∀ frames : List Frame, runFrames initState frames = Except.error e →
        upload_video (some frames) = Except.error e) := by
  intro s f e fs hmod hbuf hpr
  constructor
  · unfold runFrames processFrame
    rw [if_neg (not_ne_iff.mpr hmod),
        if_pos (by omega : min (s.bufLen + 1) SEQ_LENGTH = SEQ_LENGTH), hpr]
  · intro frames hrf
    have htr : uploadVideoTrace frames = Except.error e := by
      unfold uploadVideoTrace
      rw [hrf]
    show (match uploadVideoTrace frames with
      | Except.error e => Except.error e
      | Except.ok s => Except.ok
          (Response.result (bestPrediction s.preds).1 (bestPrediction s.preds).2))
        = Except.error e
    rw [htr]

theorem classifier_failure_witness :
    runFrames (loopStateOf demoShortFrames) [errF] = Except.error () :=
  (classifier_failure_aborts (loopStateOf demoShortFrames) errF () []
    (by decide) (by decide) rfl).1

/-- C5: after a successful, unthrottled send at t1, a second call less
than ALERT_INTERVAL later performs no external send at all and leaves
the timestamp at t1 (exactly one external send between the two calls);
a second call at least ALERT_INTERVAL later performs its external send
(delivered or failed according to the notifier); and a failed send
never advances the timestamp. -/
theorem alert_throttle :
    ∀ (last0 t1 t2 : Int) (ok2 k1 k2 : Bool),
      ALERT_INTERVAL ≤ t1 - last0 →
      send_alert last0 t1 true k1 = (t1, [Ev.alertSent k1]) ∧
      (t2 - t1 < ALERT_INTERVAL → send_alert t1 t2 ok2 k2 = (t1, [])) ∧
      (ALERT_INTERVAL ≤ t2 - t1 →
        send_alert t1 t2 ok2 k2
          = if ok2 then (t2, [Ev.alertSent k2]) else (t1, [Ev.alertFailed k2])) ∧
      (∀ (l n : Int) (k : Bool), (send_alert l n false k).1 = l) := by
  intro last0 t1 t2 ok2 k1 k2 h1
  refine ⟨?_, ?_, ?_, ?_⟩
  · unfold send_alert
    rw [if_neg (by omega), if_pos rfl]
  · intro h2
    exact send_alert_dropped h2
  · intro h2
    unfold send_alert
    rw [if_neg (by omega)]
  · intro l n k
    unfold send_alert
    split
    · rfl
    · simp

theorem alert_throttle_witness :
    send_alert 0 100 true true = (100, [Ev.alertSent true]) ∧
    (105 - 100 < ALERT_INTERVAL → send_alert 100 105 true false = (100, [])) :=
  ⟨(alert_throttle 0 100 105 true true false (by decide)).1,
   (alert_throttle 0 100 105 true true false (by decide)).2.1⟩

/-- C6: whenever the pipeline completes with a non-empty prediction
list, the response is exactly the best prediction, and that prediction
splits the list into a strict prefix (every earlier prediction has
strictly smaller confidence), itself, and a dominated suffix (every
later one has smaller-or-equal confidence): a stable max over arrival
order, ties broken by earliest arrival. -/
theorem session_best_stable_max :
    ∀ (frames : List Frame) (s : LoopState),
      uploadVideoTrace frames = Except.ok s → s.preds ≠ [] →
      upload_video (some frames)
        = Except.ok (Response.result (bestPrediction s.preds).1 (bestPrediction s.preds).2) ∧
      ∃ l1 l2, s.preds = l1 ++ bestPrediction s.preds :: l2 ∧
        (∀ q ∈ l1, q.2 < (bestPrediction s.preds).2) ∧
        (∀ q ∈ l2, q.2 ≤ (bestPrediction s.preds).2) := by
  intro frames s h hne
  refine ⟨upload_video_some h, ?_⟩
  cases hp : s.preds with
  | nil => exact absurd hp hne
  | cons x xs =>
    have hsplit := pyMax_split xs x
    simpa only [bestPrediction] using hsplit

theorem session_best_witness :
    upload_video (some demoRecFrames)
      = Except.ok (Response.result
          (bestPrediction (traceStateOf demoRecFrames).preds).1
          (bestPrediction (traceStateOf demoRecFrames).preds).2) ∧
    ∃ l1 l2, (traceStateOf demoRecFrames).preds
        = l1 ++ bestPrediction (traceStateOf demoRecFrames).preds :: l2 ∧
      (∀ q ∈ l1, q.2 < (bestPrediction (traceStateOf demoRecFrames).preds).2) ∧
      (∀ q ∈ l2, q.2 ≤ (bestPrediction (traceStateOf demoRecFrames).preds).2) :=
  session_best_stable_max demoRecFrames (traceStateOf demoRecFrames) (by rfl) (by decide)

/-- C7: a video with fewer than SEQ_LENGTH decimated frames produces
zero predictions and the sentinel response (Unknown, 0). -/
theorem short_video_sentinel :
    ∀ frames : List Frame, frames.length / FRAME_SKIP < SEQ_LENGTH →
      upload_video (some frames) = Except.ok (Response.result "Unknown" 0) ∧
      (∀ s, runFrames initState frames = Except.ok s → s.preds = []) := by
  intro frames hshort
  obtain ⟨s2, h2⟩ := runFrames_total_small frames initState rfl rfl
    (by simpa [initState] using hshort)
  obtain ⟨⟨_, hoffI, hlenI, h4, h5, h6, _⟩, hfc⟩ := runFrames_inv frames h2 inv_init
  have hpreds : s2.preds = [] := by
    have hl : s2.preds.length = 0 := by
      rw [hlenI, hoffI, hfc]
      simp only [initState, SEQ_LENGTH, FRAME_SKIP] at *
      omega
    exact List.eq_nil_of_length_eq_zero hl
  have hcc : s2.crimeCount = 0 := by
    rw [h5, hpreds]
    rfl
  have hdet : s2.crimeDetected = false := by
    cases hv : s2.crimeDetected
    · rfl
    · have h5le := h4.mp hv
      rw [hcc] at h5le
      exact absurd h5le (by omega)
  have hout : s2.outOpen = false := by
    rw [h6, hdet]
  have htr := uploadVideoTrace_ok h2
  rw [finalize_of_idle hout] at htr
  constructor
  · have hu := upload_video_some htr
    rw [hpreds] at hu
    exact hu
  · intro s hs
    rw [h2] at hs
    injection hs with hs
    subst hs
    exact hpreds

theorem short_video_witness :
    upload_video (some demoShortFrames) = Except.ok (Response.result "Unknown" 0) :=
  (short_video_sentinel demoShortFrames (by decide)).1

/-- C8: a completed run offers exactly floor(totalFrames / FRAME_SKIP)
frames to the sliding window, and a single iteration forwards its frame
exactly when the incremented (1-based) physical frame counter is
divisible by FRAME_SKIP. -/
theorem decimation_count :
    (∀ (frames : List Frame) (s : LoopState), runFrames initState frames = Except.ok s →
      s.offered = frames.length / FRAME_SKIP) ∧
    (∀ (s0 : LoopState) (f : Frame) (s1 : LoopState), processFrame s0 f = Except.ok s1 →
      (s1.offered = s0.offered + 1 ↔ (s0.frameCount + 1) % FRAME_SKIP = 0)) := by
  constructor
  · intro frames s h
    obtain ⟨⟨_, hoffI, _, _, _, _, _⟩, hfc⟩ := runFrames_inv frames h inv_init
    rw [hoffI, hfc]
    simp [initState]
  · intro s0 f s1 h
    exact processFrame_offered h

theorem decimation_witness :
    (loopStateOf demoRecFrames).offered = demoRecFrames.length / FRAME_SKIP :=
  decimation_count.1 demoRecFrames (loopStateOf demoRecFrames) (by rfl)

/-- C9: if a run starts with a successfully delivered warning at time
t0, stays open through the following frames, and is then ended by a
non-qualifying prediction whose clock value is less than ALERT_INTERVAL
past t0, the end step closes the writer and uploads the clip but emits
no alert event whatsoever: the confirmation message is silently dropped
by the shared throttle even though the upload still happens. -/
theorem short_run_confirmation_dropped :
    ∀ (sa sb sc sd : LoopState) (f0 f1 : Frame) (fs : List Frame) (p1 : String × ℚ),
      processFrame sa f0 = Except.ok sb →
      sb.events = sa.events ++ [Ev.opened clipPath, Ev.alertSent true, Ev.wrote] →
      runFrames sb fs = Except.ok sc →
      sc.crimeDetected = true →
      List.count Ev.closed sc.events = List.count Ev.closed sb.events →
      (sc.frameCount + 1) % FRAME_SKIP = 0 →
      SEQ_LENGTH ≤ sc.bufLen + 1 →
      f1.pred = Except.ok p1 →
      qualifies p1 = false →
      f1.time - f0.time < ALERT_INTERVAL →
      processFrame sc f1 = Except.ok sd →
      sd.events = sc.events ++ [Ev.closed, Ev.uploaded clipPath] ∧
      Ev.uploaded clipPath ∈ sd.events ∧
      sd.crimeDetected = false := by
  intro sa sb sc sd f0 f1 fs p1 h0 hev hrun hd hc hmod hbuf hp hq ht h1
  obtain ⟨hla, hdb, hob⟩ := start_step_success h0 hev
  obtain ⟨hlc, hoc⟩ := recording_run fs hrun hdb hob hd hc
  have ht2 : f1.time - sc.lastAlert < ALERT_INTERVAL := by
    rw [hlc, hla]
    exact ht
  obtain ⟨he, hdd, _⟩ := end_step_dropped h1 hmod hbuf hp hq hd hoc ht2
  refine ⟨he, ?_, hdd⟩
  rw [he]
  simp

theorem short_run_witness :
    c9sd.events = c9sc.events ++ [Ev.closed, Ev.uploaded clipPath] ∧
    Ev.uploaded clipPath ∈ c9sd.events ∧
    c9sd.crimeDetected = false :=
  short_run_confirmation_dropped c9sa c9sb c9sc c9sd (goodF 100) (badF 105) c9Mid
    ("normal", ⟨1, 2, by decide, by decide⟩) (by decide) (by decide) (by decide) (by decide) (by decide)
    (by decide) (by decide) (by decide) (by decide) (by decide) (by decide)

/-- C10: every open-writer event and every upload event of any request
names the one constant path crime_clip.mp4 (a program constant, not a
per-request or per-episode value), so any two episodes — within a
request or across requests — write and upload the very same file, the
later overwriting the earlier. -/
theorem constant_clip_path :
    ∀ (frames : List Frame) (s : LoopState), uploadVideoTrace frames = Except.ok s →
      (∀ p, Ev.opened p ∈ s.events → p = clipPath) ∧
      (∀ p, Ev.uploaded p ∈ s.events → p = clipPath) ∧
      (∀ p q, Ev.opened p ∈ s.events → Ev.opened q ∈ s.events → p = q) := by
  intro frames s h
  unfold uploadVideoTrace at h
  cases hr : runFrames initState frames with
  | error e => rw [hr] at h; exact absurd h (by simp)
  | ok s0 =>
    rw [hr] at h
    injection h with h
    subst h
    obtain ⟨⟨_, _, _, _, _, _, h7⟩, _⟩ := runFrames_inv frames hr inv_init
    have h7f : ∀ e ∈ (finalize s0).events, pathOk e := by
      unfold finalize
      split
      · intro e he
        rcases List.mem_append.mp he with he | he
        · exact h7 e he
        · rw [List.mem_singleton] at he
          subst he
          trivial
      · exact h7
    refine ⟨?_, ?_, ?_⟩
    · intro p hp
      exact h7f _ hp
    · intro p hp
      exact h7f _ hp
    · intro p q hp hq2
      have e1 : p = clipPath := h7f _ hp
      have e2 : q = clipPath := h7f _ hq2
      rw [e1, e2]

theorem constant_clip_path_witness :
    (∀ p, Ev.opened p ∈ (traceStateOf demoTwoRunFrames).events → p = clipPath) ∧
    (∀ p, Ev.uploaded p ∈ (traceStateOf demoTwoRunFrames).events → p = clipPath) ∧
    (∀ p q, Ev.opened p ∈ (traceStateOf demoTwoRunFrames).events →
      Ev.opened q ∈ (traceStateOf demoTwoRunFrames).events → p = q) :=
  constant_clip_path demoTwoRunFrames (traceStateOf demoTwoRunFrames) (by rfl)

end CrimeSensor
